import Mathlib

/-!
Verification of the retry helper in `src/utils/retryHelper.ts`.

The TypeScript function `retryWithBackoff` runs an asynchronous operation up
to `maxAttempts` times, sleeping between failed attempts (linearly growing
delay when `backoff` is set) and invoking an optional `onRetry` callback on
each retriable failure.  We embed it as a pure Lean function.  Effects are
made observable through an event trace:

* the wrapped operation is modelled as `fn : Nat → Except E A`, giving the
  outcome of its n-th invocation (attempt numbers are 1-based, matching the
  loop counter in the source);
* the `onRetry` callback is modelled as `Nat → E → Option E`; a `some e`
  result models the callback throwing `e`, `none` a normal return;
* JavaScript `undefined` (the initial value of `lastError`) is modelled by
  `Option.none` in the propagated error, so the executor's error type is
  `Option E`;
* every operation invocation, callback invocation and `setTimeout` sleep is
  recorded, in execution order, as a `RetryEvent` in the result trace.

`isNetworkError` from the same file is embedded over `JsMessage`, the three
observationally distinct shapes of `error?.message`: nullish (a nullish
error, or a message that is `null`/`undefined`/absent), a string (as its
`List Char` character sequence), or a non-nullish non-string value.  In the
last case `error?.message?.toLowerCase()` does not short-circuit and calling
the undefined `toLowerCase` member throws a TypeError, so the embedding
returns `Except Unit Bool` with `Except.error ()` modelling that throw.
-/

namespace RetryHelper

/-- Observable effects of one execution of `retryWithBackoff`, in order:
`call n` is the n-th invocation of the wrapped operation, `retryCb n e` an
invocation of `onRetry(n, e)`, and `sleep d` the `setTimeout` delay of `d`
milliseconds between attempts. -/
inductive RetryEvent (E : Type) where
  | call : Nat → RetryEvent E
  | retryCb : Nat → E → RetryEvent E
  | sleep : Nat → RetryEvent E
deriving DecidableEq, Repr

/-- The settled outcome of `retryWithBackoff` together with the trace of the
effects it performed.  `outcome = Except.error none` models the function
throwing the JavaScript value `undefined` (the uninitialized `lastError`);
`Except.error (some e)` models it throwing `e`. -/
structure RetryResult (A E : Type) where
  outcome : Except (Option E) A
  trace : List (RetryEvent E)

/-- The `RetryOptions` interface of the source: all fields optional.
`maxAttempts` is an `Int` so that the out-of-contract nonpositive values the
code accepts can be studied. -/
structure RetryOptions (E : Type) where
  maxAttempts : Option Int := none
  delayMs : Option Nat := none
  backoff : Option Bool := none
  onRetry : Option (Nat → E → Option E) := none

/-- `const delay = backoff ? delayMs * attempt : delayMs;` -/
def delayFor (backoff : Bool) (delayMs attempt : Nat) : Nat :=
  if backoff then delayMs * attempt else delayMs

/-- The `for (let attempt = 1; attempt <= maxAttempts; attempt++)` loop of
`retryWithBackoff`, entered at loop counter `attempt` with current value
`lastError` of the `lastError` variable (`none` = still `undefined`).

Branches, following the source line by line: if the loop guard fails the
final `throw lastError` runs; otherwise `fn()` is invoked; on success its
value is returned; on failure with `attempt === maxAttempts` the error is
re-thrown; otherwise the delay is computed, `onRetry` (if configured) is
invoked — a throwing callback propagates, skipping the sleep — then the
sleep happens and the loop continues.  (The `logger.warn`/`logger.error`
calls are omitted: the logging sink is an external collaborator with no
observable effect on the executor's contract.) -/
def retryLoop {A E : Type} (fn : Nat → Except E A)
    (onRetry : Option (Nat → E → Option E)) (delayMs : Nat) (backoff : Bool)
    (maxAttempts : Nat) (attempt : Nat) (lastError : Option E) :
    RetryResult A E :=
  if hguard : maxAttempts < attempt then
    ⟨Except.error lastError, []⟩
  else
    match fn attempt with
    | Except.ok v => ⟨Except.ok v, [RetryEvent.call attempt]⟩
    | Except.error e =>
      if hlast : attempt = maxAttempts then
        ⟨Except.error (some e), [RetryEvent.call attempt]⟩
      else
        let delay := delayFor backoff delayMs attempt
        match onRetry with
        | none =>
          let rest := retryLoop fn onRetry delayMs backoff maxAttempts
            (attempt + 1) (some e)
          ⟨rest.outcome,
            RetryEvent.call attempt :: RetryEvent.sleep delay :: rest.trace⟩
        | some cb =>
          match cb attempt e with
          | some cbErr =>
            ⟨Except.error (some cbErr),
              [RetryEvent.call attempt, RetryEvent.retryCb attempt e]⟩
          | none =>
            let rest := retryLoop fn onRetry delayMs backoff maxAttempts
              (attempt + 1) (some e)
            ⟨rest.outcome,
              RetryEvent.call attempt :: RetryEvent.retryCb attempt e ::
                RetryEvent.sleep delay :: rest.trace⟩
termination_by maxAttempts + 1 - attempt
decreasing_by all_goals omega

/-- `retryWithBackoff(fn, options)`: destructure the options with their
defaults (`maxAttempts = 3`, `delayMs = 1000`, `backoff = true`) and run the
loop from `attempt = 1` with `lastError` undefined.  A nonpositive
`maxAttempts` makes the loop guard fail immediately (`Int.toNat` clamps at
0), reaching the trailing `throw lastError`. -/
def retryWithBackoff {A E : Type} (fn : Nat → Except E A)
    (options : RetryOptions E) : RetryResult A E :=
  retryLoop fn options.onRetry (options.delayMs.getD 1000)
    (options.backoff.getD true) ((options.maxAttempts.getD 3).toNat) 1 none

/-- Number of invocations of the wrapped operation recorded in a trace. -/
def fnCallCount {E : Type} (t : List (RetryEvent E)) : Nat :=
  (t.filter fun ev => match ev with
    | RetryEvent.call _ => true
    | _ => false).length

/-- The `(attempt, error)` arguments of the `onRetry` invocations recorded in
a trace, in order. -/
def onRetryCalls {E : Type} (t : List (RetryEvent E)) : List (Nat × E) :=
  t.filterMap fun ev => match ev with
    | RetryEvent.retryCb n e => some (n, e)
    | _ => none

/-- The durations of the inter-attempt sleeps recorded in a trace, in
order. -/
def sleepDelays {E : Type} (t : List (RetryEvent E)) : List Nat :=
  t.filterMap fun ev => match ev with
    | RetryEvent.sleep d => some d
    | _ => none

/-- The `networkErrorMessages` list of `isNetworkError`, each string as its
character sequence. -/
def networkErrorMessages : List (List Char) :=
  ["network request failed".toList,
   "failed to fetch".toList,
   "network error".toList,
   "timeout".toList,
   "connection refused".toList,
   "ERR_NETWORK".toList,
   "ERR_INTERNET_DISCONNECTED".toList]

/-- The observationally distinct shapes of `error?.message` as seen by
`isNetworkError`: `nullish` when the error itself or its `message` is
`null`/`undefined`/absent (the optional chain short-circuits), `str s` when
the message is the string `s`, and `nonString` when the message is a
non-nullish value that is not a string and so has no `toLowerCase` method
(e.g. the number in `{message: 42}`). -/
inductive JsMessage where
  | nullish : JsMessage
  | str : List Char → JsMessage
  | nonString : JsMessage

/-- `error?.message?.toLowerCase()`: short-circuits to `undefined` (`ok none`)
on a nullish link, lowercases a string message, and throws a TypeError
(`Except.error ()`) on a non-nullish non-string message, whose `toLowerCase`
member is `undefined` and not callable. -/
def lowercaseMessage : JsMessage → Except Unit (Option (List Char))
  | JsMessage.nullish => Except.ok none
  | JsMessage.str s => Except.ok (some (s.map Char.toLower))
  | JsMessage.nonString => Except.error ()

/-- `isNetworkError(error)`: evaluate `error?.message?.toLowerCase() || ''`
(a thrown TypeError propagates; `undefined` falls back to the empty string)
and test whether the result contains any entry of `networkErrorMessages` as
a substring (`String.prototype.includes`). -/
def isNetworkError (message : JsMessage) : Except Unit Bool :=
  match lowercaseMessage message with
  | Except.error e => Except.error e
  | Except.ok lowered =>
    let errorMessage := lowered.getD []
    Except.ok (networkErrorMessages.any fun msg =>
      decide (List.IsInfix msg errorMessage))

end RetryHelper

namespace RetryHelper

theorem retryLoop_lastError_irrel {A E : Type} (fn : Nat → Except E A)
    (onR : Option (Nat → E → Option E)) (d : Nat) (b : Bool) (M attempt : Nat)
    (h : attempt ≤ M) (l1 l2 : Option E) :
    retryLoop fn onR d b M attempt l1 = retryLoop fn onR d b M attempt l2 := by
  rw [retryLoop, retryLoop, dif_neg (by omega), dif_neg (by omega)]

theorem retryLoop_guard_fail {A E : Type} (fn : Nat → Except E A)
    (onR : Option (Nat → E → Option E)) (d : Nat) (b : Bool) (M attempt : Nat)
    (h : M < attempt) (l : Option E) :
    retryLoop fn onR d b M attempt l = ⟨Except.error l, []⟩ := by
  rw [retryLoop, dif_pos h]

theorem retryLoop_ok {A E : Type} (fn : Nat → Except E A)
    (onR : Option (Nat → E → Option E)) (d : Nat) (b : Bool) (M attempt : Nat)
    (h : attempt ≤ M) (l : Option E) (v : A) (hfn : fn attempt = Except.ok v) :
    retryLoop fn onR d b M attempt l = ⟨Except.ok v, [RetryEvent.call attempt]⟩ := by
  rw [retryLoop, dif_neg (by omega), hfn]

theorem retryLoop_last {A E : Type} (fn : Nat → Except E A)
    (onR : Option (Nat → E → Option E)) (d : Nat) (b : Bool) (M : Nat)
    (l : Option E) (e : E) (hM : 1 ≤ M) (hfn : fn M = Except.error e) :
    retryLoop fn onR d b M M l =
      ⟨Except.error (some e), [RetryEvent.call M]⟩ := by
  rw [retryLoop, dif_neg (by omega), hfn]
  dsimp only
  rw [dif_pos rfl]

theorem retryLoop_step {A E : Type} (fn : Nat → Except E A)
    (cb : Nat → E → Option E) (d : Nat) (b : Bool) (M attempt : Nat)
    (h : attempt < M) (l : Option E) (e : E)
    (hfn : fn attempt = Except.error e) (hcb : cb attempt e = none) :
    retryLoop fn (some cb) d b M attempt l =
      ⟨(retryLoop fn (some cb) d b M (attempt + 1) (some e)).outcome,
        RetryEvent.call attempt :: RetryEvent.retryCb attempt e ::
          RetryEvent.sleep (delayFor b d attempt) ::
          (retryLoop fn (some cb) d b M (attempt + 1) (some e)).trace⟩ := by
  rw [retryLoop, dif_neg (by omega), hfn]
  dsimp only
  rw [dif_neg (show ¬ attempt = M by omega)]
  rw [hcb]

theorem retryLoop_cbThrow {A E : Type} (fn : Nat → Except E A)
    (cb : Nat → E → Option E) (d : Nat) (b : Bool) (M attempt : Nat)
    (h : attempt < M) (l : Option E) (e e2 : E)
    (hfn : fn attempt = Except.error e) (hcb : cb attempt e = some e2) :
    retryLoop fn (some cb) d b M attempt l =
      ⟨Except.error (some e2),
        [RetryEvent.call attempt, RetryEvent.retryCb attempt e]⟩ := by
  rw [retryLoop, dif_neg (by omega), hfn]
  dsimp only
  rw [dif_neg (show ¬ attempt = M by omega)]
  rw [hcb]

theorem retryLoop_step_none {A E : Type} (fn : Nat → Except E A)
    (d : Nat) (b : Bool) (M attempt : Nat)
    (h : attempt < M) (l : Option E) (e : E)
    (hfn : fn attempt = Except.error e) :
    retryLoop fn none d b M attempt l =
      ⟨(retryLoop fn none d b M (attempt + 1) (some e)).outcome,
        RetryEvent.call attempt :: RetryEvent.sleep (delayFor b d attempt) ::
          (retryLoop fn none d b M (attempt + 1) (some e)).trace⟩ := by
  rw [retryLoop, dif_neg (by omega), hfn]
  dsimp only
  rw [dif_neg (show ¬ attempt = M by omega)]

end RetryHelper

namespace RetryHelper

theorem retryLoop_skip {A E : Type} (fn : Nat → Except E A)
    (cb : Nat → E → Option E) (d : Nat) (b : Bool) (M : Nat) (e : Nat → E)
    (n : Nat) (hnM : n ≤ M) :
    ∀ (k attempt : Nat) (lastErr : Option E), attempt + k = n →
    (∀ m, attempt ≤ m → m < n → fn m = Except.error (e m)) →
    (∀ m, attempt ≤ m → m < n → cb m (e m) = none) →
    retryLoop fn (some cb) d b M attempt lastErr =
      ⟨(retryLoop fn (some cb) d b M n lastErr).outcome,
       ((List.range' attempt k).flatMap fun m =>
         [RetryEvent.call m, RetryEvent.retryCb m (e m),
          RetryEvent.sleep (delayFor b d m)]) ++
       (retryLoop fn (some cb) d b M n lastErr).trace⟩ := by
  intro k
  induction k with
  | zero =>
    intro attempt lastErr hk hf hcb
    have hae : attempt = n := by omega
    subst hae
    simp [List.range']
  | succ k ih =>
    intro attempt lastErr hk hf hcb
    have ha : attempt < n := by omega
    rw [retryLoop_step fn cb d b M attempt (by omega) lastErr (e attempt)
      (hf attempt (le_refl _) ha) (hcb attempt (le_refl _) ha)]
    rw [ih (attempt + 1) (some (e attempt)) (by omega)
      (fun m h1 h2 => hf m (by omega) h2)
      (fun m h1 h2 => hcb m (by omega) h2)]
    rw [retryLoop_lastError_irrel fn (some cb) d b M n hnM (some (e attempt)) lastErr]
    simp [List.range'_succ]

end RetryHelper

namespace RetryHelper

theorem fnCallCount_append {E : Type} (s t : List (RetryEvent E)) :
    fnCallCount (s ++ t) = fnCallCount s + fnCallCount t := by
  simp [fnCallCount, List.filter_append]

theorem onRetryCalls_append {E : Type} (s t : List (RetryEvent E)) :
    onRetryCalls (s ++ t) = onRetryCalls s ++ onRetryCalls t := by
  simp [onRetryCalls]

theorem sleepDelays_append {E : Type} (s t : List (RetryEvent E)) :
    sleepDelays (s ++ t) = sleepDelays s ++ sleepDelays t := by
  simp [sleepDelays]

theorem fnCallCount_blocks {E : Type} (e : Nat → E) (b : Bool) (d : Nat)
    (l : List Nat) :
    fnCallCount (l.flatMap fun m =>
      [RetryEvent.call m, RetryEvent.retryCb m (e m),
       RetryEvent.sleep (delayFor b d m)]) = l.length := by
  induction l with
  | nil => simp [fnCallCount]
  | cons a l ih =>
    rw [List.flatMap_cons, fnCallCount_append, ih]
    simp [fnCallCount]
    omega

theorem onRetryCalls_blocks {E : Type} (e : Nat → E) (b : Bool) (d : Nat)
    (l : List Nat) :
    onRetryCalls (l.flatMap fun m =>
      [RetryEvent.call m, RetryEvent.retryCb m (e m),
       RetryEvent.sleep (delayFor b d m)]) = l.map fun m => (m, e m) := by
  induction l with
  | nil => simp [onRetryCalls]
  | cons a l ih =>
    rw [List.flatMap_cons, onRetryCalls_append, ih]
    simp [onRetryCalls]

theorem sleepDelays_blocks {E : Type} (e : Nat → E) (b : Bool) (d : Nat)
    (l : List Nat) :
    sleepDelays (l.flatMap fun m =>
      [RetryEvent.call m, RetryEvent.retryCb m (e m),
       RetryEvent.sleep (delayFor b d m)]) = l.map fun m => delayFor b d m := by
  induction l with
  | nil => simp [sleepDelays]
  | cons a l ih =>
    rw [List.flatMap_cons, sleepDelays_append, ih]
    simp [sleepDelays]

/-- Characterization of a run in which every attempt fails: the loop walks
through attempts `1, …, N`, with a callback invocation and a sleep after each
of the first `N - 1`, and finally re-throws the `N`-th error. -/
theorem retryWithBackoff_allFail {A E : Type} (e : Nat → E)
    (cb : Nat → E → Option E) (d : Nat) (b : Bool) (N : Nat)
    (fn : Nat → Except E A) (hN : 1 ≤ N)
    (hf : ∀ m, 1 ≤ m → m ≤ N → fn m = Except.error (e m))
    (hcb : ∀ m er, cb m er = none) :
    retryWithBackoff fn
      { maxAttempts := some (N : Int), delayMs := some d, backoff := some b,
        onRetry := some cb } =
      ⟨Except.error (some (e N)),
       ((List.range' 1 (N - 1)).flatMap fun m =>
         [RetryEvent.call m, RetryEvent.retryCb m (e m),
          RetryEvent.sleep (delayFor b d m)]) ++ [RetryEvent.call N]⟩ := by
  show retryLoop fn (some cb) d b ((N : Int)).toNat 1 none = _
  have hNN : ((N : Int)).toNat = N := by omega
  rw [hNN]
  rw [retryLoop_skip fn cb d b N e N (le_refl N) (N - 1) 1 none (by omega)
    (fun m h1 h2 => hf m h1 (by omega))
    (fun m h1 h2 => hcb m (e m))]
  rw [retryLoop_last fn (some cb) d b N none (e N) hN (hf N hN (le_refl N))]

end RetryHelper

namespace RetryHelper

/-- C1: for an operation that fails on every attempt and `maxAttempts = N ≥ 1`
(with a configured `onRetry` callback that returns normally), `retryWithBackoff`
invokes the operation exactly `N` times, invokes `onRetry` exactly `N - 1`
times with attempt arguments `1, 2, …, N - 1` in that order, and performs
exactly `N - 1` inter-attempt delays; in particular for `N = 1` the operation
is invoked once, `onRetry` never, and no delay occurs. -/
theorem bounded_attempts {A E : Type} (e : Nat → E) (cb : Nat → E → Option E)
    (d : Nat) (b : Bool) (N : Nat) (fn : Nat → Except E A) (hN : 1 ≤ N)
    (hf : ∀ m, 1 ≤ m → m ≤ N → fn m = Except.error (e m))
    (hcb : ∀ m er, cb m er = none) :
    fnCallCount (retryWithBackoff fn
      { maxAttempts := some (N : Int), delayMs := some d, backoff := some b,
        onRetry := some cb }).trace = N ∧
    onRetryCalls (retryWithBackoff fn
      { maxAttempts := some (N : Int), delayMs := some d, backoff := some b,
        onRetry := some cb }).trace =
      (List.range' 1 (N - 1)).map (fun m => (m, e m)) ∧
    (sleepDelays (retryWithBackoff fn
      { maxAttempts := some (N : Int), delayMs := some d, backoff := some b,
        onRetry := some cb }).trace).length = N - 1 := by
  rw [retryWithBackoff_allFail e cb d b N fn hN hf hcb]
  refine ⟨?_, ?_, ?_⟩
  · rw [show (⟨Except.error (some (e N)), _⟩ : RetryResult A E).trace = _ from rfl,
      fnCallCount_append, fnCallCount_blocks]
    simp [fnCallCount, List.length_range']
    omega
  · rw [show (⟨Except.error (some (e N)), _⟩ : RetryResult A E).trace = _ from rfl,
      onRetryCalls_append, onRetryCalls_blocks]
    simp [onRetryCalls]
  · rw [show (⟨Except.error (some (e N)), _⟩ : RetryResult A E).trace = _ from rfl,
      sleepDelays_append, sleepDelays_blocks]
    simp [sleepDelays, List.length_range']

theorem bounded_attempts_witness :
    fnCallCount (retryWithBackoff (A := Nat) (fun m => Except.error m)
      { maxAttempts := some 3, delayMs := some 100, backoff := some true,
        onRetry := some fun _ _ => (none : Option Nat) }).trace = 3 ∧
    onRetryCalls (retryWithBackoff (A := Nat) (fun m => Except.error m)
      { maxAttempts := some 3, delayMs := some 100, backoff := some true,
        onRetry := some fun _ _ => (none : Option Nat) }).trace =
      (List.range' 1 (3 - 1)).map (fun m => (m, m)) ∧
    (sleepDelays (retryWithBackoff (A := Nat) (fun m => Except.error m)
      { maxAttempts := some 3, delayMs := some 100, backoff := some true,
        onRetry := some fun _ _ => (none : Option Nat) }).trace).length = 3 - 1 := by
  exact bounded_attempts (fun m => m) (fun _ _ => none) 100 true 3
    (fun m => Except.error m) (by omega) (fun m _ _ => rfl) (fun m er => rfl)

/-- C2: for an operation that fails on all of `maxAttempts = N ≥ 1` attempts,
the propagated error is exactly the error raised on the `N`-th (last)
attempt, unchanged — not the first and not a wrapped or aggregated value. -/
theorem last_error_propagation {A E : Type} (e : Nat → E)
    (cb : Nat → E → Option E) (d : Nat) (b : Bool) (N : Nat)
    (fn : Nat → Except E A) (hN : 1 ≤ N)
    (hf : ∀ m, 1 ≤ m → m ≤ N → fn m = Except.error (e m))
    (hcb : ∀ m er, cb m er = none) :
    (retryWithBackoff fn
      { maxAttempts := some (N : Int), delayMs := some d, backoff := some b,
        onRetry := some cb }).outcome = Except.error (some (e N)) := by
  rw [retryWithBackoff_allFail e cb d b N fn hN hf hcb]

theorem last_error_propagation_witness :
    (retryWithBackoff (A := Nat) (fun m => Except.error (10 * m))
      { maxAttempts := some 3, delayMs := some 100, backoff := some true,
        onRetry := some fun _ _ => (none : Option Nat) }).outcome =
      Except.error (some 30) := by
  exact last_error_propagation (fun m => 10 * m) (fun _ _ => none) 100 true 3
    (fun m => Except.error (10 * m)) (by omega) (fun m _ _ => rfl)
    (fun m er => rfl)

end RetryHelper

namespace RetryHelper

/-- C3: on a retriable failure at attempt `n < maxAttempts`, the inter-attempt
delay equals `delayMs * n` when `backoff` is enabled and `delayMs` otherwise,
and the configured `onRetry` callback is invoked with `(n, error)` immediately
before that delay begins. -/
theorem backoff_delay_schedule {A E : Type} (e : Nat → E)
    (cb : Nat → E → Option E) (d : Nat) (b : Bool) (M n : Nat)
    (fn : Nat → Except E A) (h1 : 1 ≤ n) (hnM : n < M)
    (hf : ∀ m, 1 ≤ m → m ≤ n → fn m = Except.error (e m))
    (hcb : ∀ m, 1 ≤ m → m ≤ n → cb m (e m) = none) :
    ∃ pre post,
      (retryWithBackoff fn
        { maxAttempts := some (M : Int), delayMs := some d, backoff := some b,
          onRetry := some cb }).trace =
        pre ++ RetryEvent.retryCb n (e n) ::
          RetryEvent.sleep (if b then d * n else d) :: post := by
  show ∃ pre post, (retryLoop fn (some cb) d b ((M : Int)).toNat 1 none).trace = _
  have hMM : ((M : Int)).toNat = M := by omega
  rw [hMM]
  rw [retryLoop_skip fn cb d b M e n (by omega) (n - 1) 1 none (by omega)
    (fun m hm1 hm2 => hf m hm1 (by omega))
    (fun m hm1 hm2 => hcb m hm1 (by omega))]
  rw [retryLoop_step fn cb d b M n hnM none (e n) (hf n h1 (le_refl n))
    (hcb n h1 (le_refl n))]
  dsimp only
  refine ⟨((List.range' 1 (n - 1)).flatMap fun m =>
    [RetryEvent.call m, RetryEvent.retryCb m (e m),
     RetryEvent.sleep (delayFor b d m)]) ++ [RetryEvent.call n],
    (retryLoop fn (some cb) d b M (n + 1) (some (e n))).trace, ?_⟩
  simp [delayFor, List.append_assoc]

theorem backoff_delay_schedule_witness :
    ∃ pre post,
      (retryWithBackoff (A := Nat) (fun m => Except.error m)
        { maxAttempts := some 5, delayMs := some 100, backoff := some true,
          onRetry := some fun _ _ => (none : Option Nat) }).trace =
        pre ++ RetryEvent.retryCb 2 2 ::
          RetryEvent.sleep (if true then 100 * 2 else 100) :: post := by
  exact backoff_delay_schedule (fun m => m) (fun _ _ => none) 100 true 5 2
    (fun m => Except.error m) (by omega) (by omega) (fun m _ _ => rfl)
    (fun m _ _ => rfl)

/-- Characterization of a run that fails on attempts `1, …, k - 1` and
succeeds on attempt `k ≤ maxAttempts`. -/
theorem retryWithBackoff_prefixFail {A E : Type} (e : Nat → E)
    (cb : Nat → E → Option E) (d : Nat) (b : Bool) (M k : Nat) (v : A)
    (fn : Nat → Except E A) (hk : 1 ≤ k) (hkM : k ≤ M)
    (hf : ∀ m, 1 ≤ m → m < k → fn m = Except.error (e m))
    (hfk : fn k = Except.ok v)
    (hcb : ∀ m, 1 ≤ m → m < k → cb m (e m) = none) :
    retryWithBackoff fn
      { maxAttempts := some (M : Int), delayMs := some d, backoff := some b,
        onRetry := some cb } =
      ⟨Except.ok v,
       ((List.range' 1 (k - 1)).flatMap fun m =>
         [RetryEvent.call m, RetryEvent.retryCb m (e m),
          RetryEvent.sleep (delayFor b d m)]) ++ [RetryEvent.call k]⟩ := by
  show retryLoop fn (some cb) d b ((M : Int)).toNat 1 none = _
  have hMM : ((M : Int)).toNat = M := by omega
  rw [hMM]
  rw [retryLoop_skip fn cb d b M e k (by omega) (k - 1) 1 none (by omega)
    (fun m hm1 hm2 => hf m hm1 hm2) (fun m hm1 hm2 => hcb m hm1 hm2)]
  rw [retryLoop_ok fn (some cb) d b M k (by omega) none v hfk]

/-- C4: for an operation that fails on attempts `1, …, k - 1` and succeeds on
attempt `k ≤ maxAttempts`, `retryWithBackoff` returns the success value of
attempt `k`, invokes the operation exactly `k` times, invokes `onRetry`
exactly `k - 1` times, and propagates no failure. -/
theorem eventual_success {A E : Type} (e : Nat → E) (cb : Nat → E → Option E)
    (d : Nat) (b : Bool) (M k : Nat) (v : A) (fn : Nat → Except E A)
    (hk : 1 ≤ k) (hkM : k ≤ M)
    (hf : ∀ m, 1 ≤ m → m < k → fn m = Except.error (e m))
    (hfk : fn k = Except.ok v)
    (hcb : ∀ m, 1 ≤ m → m < k → cb m (e m) = none) :
    (retryWithBackoff fn
      { maxAttempts := some (M : Int), delayMs := some d, backoff := some b,
        onRetry := some cb }).outcome = Except.ok v ∧
    fnCallCount (retryWithBackoff fn
      { maxAttempts := some (M : Int), delayMs := some d, backoff := some b,
        onRetry := some cb }).trace = k ∧
    (onRetryCalls (retryWithBackoff fn
      { maxAttempts := some (M : Int), delayMs := some d, backoff := some b,
        onRetry := some cb }).trace).length = k - 1 := by
  rw [retryWithBackoff_prefixFail e cb d b M k v fn hk hkM hf hfk hcb]
  refine ⟨rfl, ?_, ?_⟩
  · rw [show (⟨Except.ok v, _⟩ : RetryResult A E).trace = _ from rfl,
      fnCallCount_append, fnCallCount_blocks]
    simp [fnCallCount, List.length_range']
    omega
  · rw [show (⟨Except.ok v, _⟩ : RetryResult A E).trace = _ from rfl,
      onRetryCalls_append, onRetryCalls_blocks]
    simp [onRetryCalls, List.length_range']

theorem eventual_success_witness :
    (retryWithBackoff (A := Nat) (fun m => if m = 3 then Except.ok 42 else Except.error m)
      { maxAttempts := some 5, delayMs := some 100, backoff := some true,
        onRetry := some fun _ _ => (none : Option Nat) }).outcome = Except.ok 42 ∧
    fnCallCount (retryWithBackoff (A := Nat) (fun m => if m = 3 then Except.ok 42 else Except.error m)
      { maxAttempts := some 5, delayMs := some 100, backoff := some true,
        onRetry := some fun _ _ => (none : Option Nat) }).trace = 3 ∧
    (onRetryCalls (retryWithBackoff (A := Nat) (fun m => if m = 3 then Except.ok 42 else Except.error m)
      { maxAttempts := some 5, delayMs := some 100, backoff := some true,
        onRetry := some fun _ _ => (none : Option Nat) }).trace).length = 3 - 1 := by
  exact eventual_success (fun m => m) (fun _ _ => none) 100 true 5 3 42
    (fun m => if m = 3 then Except.ok 42 else Except.error m) (by omega)
    (by omega) (fun m hm1 hm2 => by simp; omega) rfl (fun m _ _ => rfl)

/-- C5: for an operation that succeeds on its first invocation,
`retryWithBackoff` returns that value with the operation invoked exactly
once, no delay and no `onRetry` invocation, for every in-contract
configuration (any `delayMs`, `backoff`, `onRetry`, and any
`maxAttempts ≥ 1`). -/
theorem first_try_success {A E : Type} (fn : Nat → Except E A) (v : A)
    (opts : RetryOptions E) (hfn : fn 1 = Except.ok v)
    (hM : 1 ≤ opts.maxAttempts.getD 3) :
    (retryWithBackoff fn opts).outcome = Except.ok v ∧
    fnCallCount (retryWithBackoff fn opts).trace = 1 ∧
    sleepDelays (retryWithBackoff fn opts).trace = [] ∧
    onRetryCalls (retryWithBackoff fn opts).trace = [] := by
  have h : retryWithBackoff fn opts = ⟨Except.ok v, [RetryEvent.call 1]⟩ := by
    show retryLoop fn opts.onRetry (opts.delayMs.getD 1000)
      (opts.backoff.getD true) ((opts.maxAttempts.getD 3).toNat) 1 none = _
    exact retryLoop_ok fn opts.onRetry (opts.delayMs.getD 1000)
      (opts.backoff.getD true) ((opts.maxAttempts.getD 3).toNat) 1
      (by omega) none v hfn
  rw [h]
  exact ⟨rfl, rfl, rfl, rfl⟩

theorem first_try_success_witness :
    (retryWithBackoff (E := Nat) (fun _ => Except.ok 7)
      { maxAttempts := some 9, delayMs := some 50, backoff := some false,
        onRetry := some fun _ _ => (none : Option Nat) }).outcome = Except.ok 7 ∧
    fnCallCount (retryWithBackoff (E := Nat) (fun _ => Except.ok 7)
      { maxAttempts := some 9, delayMs := some 50, backoff := some false,
        onRetry := some fun _ _ => (none : Option Nat) }).trace = 1 ∧
    sleepDelays (retryWithBackoff (E := Nat) (fun _ => Except.ok 7)
      { maxAttempts := some 9, delayMs := some 50, backoff := some false,
        onRetry := some fun _ _ => (none : Option Nat) }).trace = [] ∧
    onRetryCalls (retryWithBackoff (E := Nat) (fun _ => Except.ok 7)
      { maxAttempts := some 9, delayMs := some 50, backoff := some false,
        onRetry := some fun _ _ => (none : Option Nat) }).trace = [] := by
  exact first_try_success (fun _ => Except.ok 7) 7
    { maxAttempts := some 9, delayMs := some 50, backoff := some false,
      onRetry := some fun _ _ => none } rfl (by decide)

end RetryHelper

namespace RetryHelper

/-- Totality of the loop: from any in-range attempt, the loop settles with a
success value or with a thrown error (never with the undefined
`lastError`). -/
theorem retryLoop_settles {A E : Type} (fn : Nat → Except E A)
    (onR : Option (Nat → E → Option E)) (d : Nat) (b : Bool) (M : Nat) :
    ∀ (k attempt : Nat) (lastErr : Option E), attempt + k = M → 1 ≤ attempt →
    (∃ v, (retryLoop fn onR d b M attempt lastErr).outcome = Except.ok v) ∨
    (∃ er, (retryLoop fn onR d b M attempt lastErr).outcome =
      Except.error (some er)) := by
  intro k
  induction k with
  | zero =>
    intro attempt lastErr hk h1
    have haM : attempt = M := by omega
    subst haM
    cases hfn : fn attempt with
    | ok v =>
      rw [retryLoop_ok fn onR d b attempt attempt (le_refl attempt) lastErr v hfn]
      exact Or.inl ⟨v, rfl⟩
    | error e =>
      rw [retryLoop_last fn onR d b attempt lastErr e h1 hfn]
      exact Or.inr ⟨e, rfl⟩
  | succ k ih =>
    intro attempt lastErr hk h1
    have ha : attempt < M := by omega
    cases hfn : fn attempt with
    | ok v =>
      rw [retryLoop_ok fn onR d b M attempt (by omega) lastErr v hfn]
      exact Or.inl ⟨v, rfl⟩
    | error e =>
      cases onR with
      | none =>
        rw [retryLoop_step_none fn d b M attempt ha lastErr e hfn]
        exact ih (attempt + 1) (some e) (by omega) (by omega)
      | some cb =>
        cases hc : cb attempt e with
        | none =>
          rw [retryLoop_step fn cb d b M attempt ha lastErr e hfn hc]
          exact ih (attempt + 1) (some e) (by omega) (by omega)
        | some e2 =>
          rw [retryLoop_cbThrow fn cb d b M attempt ha lastErr e e2 hfn hc]
          exact Or.inr ⟨e2, rfl⟩

/-- C6: for every operation and every configuration with `maxAttempts ≥ 1`
and an `onRetry` callback that does not itself throw, `retryWithBackoff`
settles in exactly one of two ways — a success value or a propagated
failure — never both and never neither (no outcome is silently swallowed). -/
theorem settles_exclusively {A E : Type} (fn : Nat → Except E A)
    (opts : RetryOptions E) (hM : 1 ≤ opts.maxAttempts.getD 3)
    (hcb : ∀ g, opts.onRetry = some g → ∀ m er, g m er = none) :
    ((∃ v, (retryWithBackoff fn opts).outcome = Except.ok v) ∨
     (∃ er, (retryWithBackoff fn opts).outcome = Except.error (some er))) ∧
    ¬ ((∃ v, (retryWithBackoff fn opts).outcome = Except.ok v) ∧
       (∃ er, (retryWithBackoff fn opts).outcome = Except.error (some er))) := by
  constructor
  · have h := retryLoop_settles fn opts.onRetry (opts.delayMs.getD 1000)
      (opts.backoff.getD true) ((opts.maxAttempts.getD 3).toNat)
      ((opts.maxAttempts.getD 3).toNat - 1) 1 none (by omega) (le_refl 1)
    exact h
  · rintro ⟨⟨v, hv⟩, ⟨er, her⟩⟩
    rw [hv] at her
    cases her

theorem settles_exclusively_witness :
    ((∃ v, (retryWithBackoff (A := Nat) (fun m => Except.error m)
      { maxAttempts := some 2, delayMs := some 10, backoff := some true,
        onRetry := some fun _ _ => (none : Option Nat) }).outcome = Except.ok v) ∨
     (∃ er, (retryWithBackoff (A := Nat) (fun m => Except.error m)
      { maxAttempts := some 2, delayMs := some 10, backoff := some true,
        onRetry := some fun _ _ => (none : Option Nat) }).outcome =
        Except.error (some er))) ∧
    ¬ ((∃ v, (retryWithBackoff (A := Nat) (fun m => Except.error m)
      { maxAttempts := some 2, delayMs := some 10, backoff := some true,
        onRetry := some fun _ _ => (none : Option Nat) }).outcome = Except.ok v) ∧
       (∃ er, (retryWithBackoff (A := Nat) (fun m => Except.error m)
      { maxAttempts := some 2, delayMs := some 10, backoff := some true,
        onRetry := some fun _ _ => (none : Option Nat) }).outcome =
        Except.error (some er))) := by
  exact settles_exclusively (fun m => Except.error m)
    { maxAttempts := some 2, delayMs := some 10, backoff := some true,
      onRetry := some fun _ _ => none } (by decide)
    (fun g hg m er => by cases hg; rfl)

/-- C7: an empty configuration behaves identically to the explicit
configuration `maxAttempts = 3`, `delayMs = 1000`, `backoff = true`: every
omitted option is replaced by its documented default, so for every operation
the two calls produce the same result — same outcome, same operation and
`onRetry` invocations, same delay schedule. -/
theorem empty_options_defaults {A E : Type} (fn : Nat → Except E A) :
    retryWithBackoff fn {} =
      retryWithBackoff fn
        { maxAttempts := some 3, delayMs := some 1000, backoff := some true,
          onRetry := none } := rfl

/-- C8: if the `onRetry` callback itself throws on the `n`-th retriable
failure (`n < maxAttempts`), the thrown value propagates as the outcome, the
inter-attempt delay for attempt `n` never happens (only the `n - 1` earlier
delays do) and the operation is never invoked again (exactly `n`
invocations). -/
theorem onRetry_throw_aborts {A E : Type} (e : Nat → E)
    (cb : Nat → E → Option E) (d : Nat) (b : Bool) (M n : Nat) (e2 : E)
    (fn : Nat → Except E A) (h1 : 1 ≤ n) (hnM : n < M)
    (hf : ∀ m, 1 ≤ m → m ≤ n → fn m = Except.error (e m))
    (hcb : ∀ m, 1 ≤ m → m < n → cb m (e m) = none)
    (hthrow : cb n (e n) = some e2) :
    (retryWithBackoff fn
      { maxAttempts := some (M : Int), delayMs := some d, backoff := some b,
        onRetry := some cb }).outcome = Except.error (some e2) ∧
    fnCallCount (retryWithBackoff fn
      { maxAttempts := some (M : Int), delayMs := some d, backoff := some b,
        onRetry := some cb }).trace = n ∧
    (sleepDelays (retryWithBackoff fn
      { maxAttempts := some (M : Int), delayMs := some d, backoff := some b,
        onRetry := some cb }).trace).length = n - 1 := by
  have hchar : retryWithBackoff fn
      { maxAttempts := some (M : Int), delayMs := some d, backoff := some b,
        onRetry := some cb } =
      ⟨Except.error (some e2),
       ((List.range' 1 (n - 1)).flatMap fun m =>
         [RetryEvent.call m, RetryEvent.retryCb m (e m),
          RetryEvent.sleep (delayFor b d m)]) ++
       [RetryEvent.call n, RetryEvent.retryCb n (e n)]⟩ := by
    show retryLoop fn (some cb) d b ((M : Int)).toNat 1 none = _
    have hMM : ((M : Int)).toNat = M := by omega
    rw [hMM]
    rw [retryLoop_skip fn cb d b M e n (by omega) (n - 1) 1 none (by omega)
      (fun m hm1 hm2 => hf m hm1 (by omega))
      (fun m hm1 hm2 => hcb m hm1 hm2)]
    rw [retryLoop_cbThrow fn cb d b M n hnM none (e n) e2
      (hf n h1 (le_refl n)) hthrow]
  rw [hchar]
  refine ⟨rfl, ?_, ?_⟩
  · rw [show (⟨Except.error (some e2), _⟩ : RetryResult A E).trace = _ from rfl,
      fnCallCount_append, fnCallCount_blocks]
    simp [fnCallCount, List.length_range']
    omega
  · rw [show (⟨Except.error (some e2), _⟩ : RetryResult A E).trace = _ from rfl,
      sleepDelays_append, sleepDelays_blocks]
    simp [sleepDelays, List.length_range']

theorem onRetry_throw_aborts_witness :
    (retryWithBackoff (A := Nat) (fun m => Except.error m)
      { maxAttempts := some 5, delayMs := some 10, backoff := some true,
        onRetry := some fun a er => if a = 2 then some (er + 100) else none }).outcome =
      Except.error (some 102) ∧
    fnCallCount (retryWithBackoff (A := Nat) (fun m => Except.error m)
      { maxAttempts := some 5, delayMs := some 10, backoff := some true,
        onRetry := some fun a er => if a = 2 then some (er + 100) else none }).trace = 2 ∧
    (sleepDelays (retryWithBackoff (A := Nat) (fun m => Except.error m)
      { maxAttempts := some 5, delayMs := some 10, backoff := some true,
        onRetry := some fun a er => if a = 2 then some (er + 100) else none }).trace).length =
      2 - 1 := by
  exact onRetry_throw_aborts (fun m => m)
    (fun a er => if a = 2 then some (er + 100) else none) 10 true 5 2 102
    (fun m => Except.error m) (by omega) (by omega) (fun m _ _ => rfl)
    (fun m hm1 hm2 => by simp; omega) rfl

/-- C9: with a configured `maxAttempts ≤ 0` (out of the spec's
positive-integer contract) the loop body never runs: the operation and
`onRetry` are never invoked and the function throws the still-undefined
`lastError` (modelled as `Except.error none`). -/
theorem nonpositive_maxAttempts {A E : Type} (fn : Nat → Except E A)
    (m : Int) (hm : m ≤ 0) (d : Option Nat) (b : Option Bool)
    (onR : Option (Nat → E → Option E)) :
    retryWithBackoff fn
      { maxAttempts := some m, delayMs := d, backoff := b, onRetry := onR } =
      ⟨Except.error none, []⟩ ∧
    fnCallCount (retryWithBackoff fn
      { maxAttempts := some m, delayMs := d, backoff := b,
        onRetry := onR }).trace = 0 ∧
    onRetryCalls (retryWithBackoff fn
      { maxAttempts := some m, delayMs := d, backoff := b,
        onRetry := onR }).trace = [] := by
  have h : retryWithBackoff fn
      { maxAttempts := some m, delayMs := d, backoff := b, onRetry := onR } =
      ⟨Except.error none, []⟩ := by
    show retryLoop fn onR (d.getD 1000) (b.getD true)
      ((Option.getD (some m) 3).toNat) 1 none = _
    refine retryLoop_guard_fail fn onR _ _ _ 1 ?_ none
    rw [Option.getD_some]
    omega
  rw [h]
  exact ⟨rfl, rfl, rfl⟩

theorem nonpositive_maxAttempts_witness :
    retryWithBackoff (A := Nat) (E := Nat) (fun m => Except.error m)
      { maxAttempts := some (-2), delayMs := some 10, backoff := some true,
        onRetry := some fun _ _ => none } =
      ⟨Except.error none, []⟩ ∧
    fnCallCount (retryWithBackoff (A := Nat) (E := Nat) (fun m => Except.error m)
      { maxAttempts := some (-2), delayMs := some 10, backoff := some true,
        onRetry := some fun _ _ => none }).trace = 0 ∧
    onRetryCalls (retryWithBackoff (A := Nat) (E := Nat) (fun m => Except.error m)
      { maxAttempts := some (-2), delayMs := some 10, backoff := some true,
        onRetry := some fun _ _ => none }).trace = [] := by
  exact nonpositive_maxAttempts (fun m => Except.error m) (-2) (by omega)
    (some 10) (some true) (some fun _ _ => none)

end RetryHelper

namespace RetryHelper

/-- `Char.toLower` never produces the uppercase letter `E`: an in-range
(65–90) code point is shifted to 97–122, and an out-of-range one is returned
unchanged and so cannot be 69. -/
theorem toLower_ne_upper_E (c : Char) : Char.toLower c ≠ 'E' := by
  show (let n := c.toNat; if n ≥ 65 ∧ n ≤ 90 then Char.ofNat (n + 32) else c) ≠ 'E'
  simp only []
  split
  · intro h
    have h2 : (Char.ofNat (c.toNat + 32)).toNat = 69 := by rw [h]; decide
    have hval : (c.toNat + 32).isValidChar := by
      constructor
      omega
    rw [Char.ofNat, dif_pos hval] at h2
    have h3 : (Char.ofNatAux (c.toNat + 32) hval).toNat = c.toNat + 32 := rfl
    omega
  · intro h
    subst h
    revert ‹¬_›
    decide

/-- A pattern containing the letter `E` is never a substring of a lowercased
message. -/
theorem upper_pattern_no_match (m p : List Char) (hp : 'E' ∈ p) :
    ¬ List.IsInfix p (m.map Char.toLower) := by
  intro h
  obtain ⟨c, _, hlc⟩ := List.mem_map.mp (h.subset hp)
  exact toLower_ne_upper_E c hlc

/-- C10 counterexample: an error with a non-nullish, non-string message
(such as `{message: 42}`) makes `isNetworkError` throw a TypeError —
`Except.error ()` — instead of returning `false`, refuting the claim's
clause that any error lacking a string message returns `false` without
throwing. -/
theorem isNetworkError_nonString_throws :
    isNetworkError JsMessage.nonString = Except.error () ∧
    isNetworkError JsMessage.nonString ≠ Except.ok false := by
  refine ⟨rfl, fun h => ?_⟩
  rw [show isNetworkError JsMessage.nonString = Except.error () from rfl] at h
  cases h

/-- C10 (amended): `isNetworkError` returns `true` exactly when the error's
message is a string whose lowercased form contains one of the five lowercase
patterns `network request failed`, `failed to fetch`, `network error`,
`timeout`, `connection refused`; because the message is lowercased first,
the uppercase list entries `ERR_NETWORK` and `ERR_INTERNET_DISCONNECTED`
can never match; an error whose message is nullish (including a null or
undefined error) yields `false` without throwing; and an error with a
non-nullish non-string message throws a TypeError. -/
theorem isNetworkError_spec :
    (∀ m : List Char, isNetworkError (JsMessage.str m) = Except.ok true ↔
      (List.IsInfix "network request failed".toList (m.map Char.toLower) ∨
       List.IsInfix "failed to fetch".toList (m.map Char.toLower) ∨
       List.IsInfix "network error".toList (m.map Char.toLower) ∨
       List.IsInfix "timeout".toList (m.map Char.toLower) ∨
       List.IsInfix "connection refused".toList (m.map Char.toLower))) ∧
    (∀ m : List Char,
      ¬ List.IsInfix "ERR_NETWORK".toList (m.map Char.toLower) ∧
      ¬ List.IsInfix "ERR_INTERNET_DISCONNECTED".toList (m.map Char.toLower)) ∧
    isNetworkError JsMessage.nullish = Except.ok false ∧
    isNetworkError JsMessage.nonString = Except.error () := by
  refine ⟨fun m => ?_,
    fun m => ⟨upper_pattern_no_match m _ (by decide),
      upper_pattern_no_match m _ (by decide)⟩, rfl, rfl⟩
  have hnet : ¬ List.IsInfix "ERR_NETWORK".toList (m.map Char.toLower) :=
    upper_pattern_no_match m _ (by decide)
  have hdisc : ¬ List.IsInfix "ERR_INTERNET_DISCONNECTED".toList
      (m.map Char.toLower) :=
    upper_pattern_no_match m _ (by decide)
  simp only [isNetworkError, lowercaseMessage, networkErrorMessages,
    Option.getD_some, List.any_cons, List.any_nil, Except.ok.injEq,
    Bool.or_eq_true, decide_eq_true_eq]
  tauto

end RetryHelper
